/-
  Verification of the FIR OCR field-extraction backend.

  Shallow embedding of:
    backend/app/services/extraction_service.py  (FIRExtractionService)
    backend/app/services/training_service.py    (TrainingService)

  Text is modelled as `List Char`.  Python regular expressions in the source
  are fixed literal patterns; each `re.search` / `re.findall` call is embedded
  as a direct scanning function implementing the leftmost-match / lazy-group
  semantics of that particular pattern.  Modelling notes:
    * Python `\w` (unicode word character) is modelled as ASCII alphanumeric,
      underscore, or any code point >= 0x80; `\s` as ASCII whitespace.  All
      concrete inputs used in theorems below stay inside ASCII, where the
      model agrees exactly with Python.
    * floats (OCR confidences) are modelled as rationals.
    * An exception raised by one of the eight field-group routines inside the
      single `try:` block of `extract_fields` is modelled by a fault-injection
      argument `fault : Option Nat`: `some i` means the routine of group `i`
      raises, `none` means no routine raises (the program as it runs).
-/
import Mathlib

set_option maxRecDepth 10000

abbrev Str := List Char

def txt (s : String) : Str := s.data

/-- Python `\s` (ASCII fragment). -/
def wsc (c : Char) : Bool := c.isWhitespace

/-- Python `\w` (see modelling note at the top of the file). -/
def isWordChar (c : Char) : Bool := c.isAlphanum || c == '_' || decide (0x80 ≤ c.toNat)

/-- `k` is a (case-sensitive) leading segment of `s`. -/
def leadsWith : Str → Str → Bool
  | [], _ => true
  | _ :: _, [] => false
  | a :: k, b :: s => a == b && leadsWith k s

/-- `k` (given lower-case) is a leading segment of `s` up to ASCII case. -/
def leadsWithCI : Str → Str → Bool
  | [], _ => true
  | _ :: _, [] => false
  | a :: k, b :: s => a == b.toLower && leadsWithCI k s

/-- `k` occurs somewhere inside `s` (Python `in` / `str.find`). -/
def isSub (k : Str) : Str → Bool
  | [] => leadsWith k []
  | c :: t => leadsWith k (c :: t) || isSub k t

/-- Try `f` on every suffix of `s`, leftmost first, including the empty
    suffix (where `$` can still match). -/
def scanFor {α : Type} (f : Str → Option α) : Str → Option α
  | [] => f []
  | c :: t =>
    match f (c :: t) with
    | some r => some r
    | none => scanFor f t

/-- Characters before the first suffix where `p` holds (`(.*?)` before a
    boundary alternation; `p` always holds at `[]` for the `$` case). -/
def takeUntilB (p : Str → Bool) : Str → Str
  | [] => []
  | c :: t => if p (c :: t) then [] else c :: takeUntilB p t

/-- Everything after the first `':'` (the lazy `.*?:` of the source patterns);
    `none` when no colon occurs. -/
def afterFirstColon : Str → Option Str
  | [] => none
  | c :: t => if c == ':' then some t else afterFirstColon t

/-- Exactly `n` leading digits (`\d{n}`), with the rest of the input. -/
def takeDigitsR : Nat → Str → Option (Str × Str)
  | 0, s => some ([], s)
  | _ + 1, [] => none
  | n + 1, c :: t =>
    if c.isDigit then (takeDigitsR n t).map (fun p => (c :: p.1, p.2)) else none

/-- First window of `n` consecutive digits anywhere in `s`
    (`re.search(r'(\d{n})', s)`). -/
def firstDigitRun (n : Nat) (s : Str) : Option Str :=
  scanFor (fun suf => (takeDigitsR n suf).map (·.1)) s

def natOfDigits (s : Str) : Nat :=
  s.foldl (fun a c => 10 * a + (c.toNat - 48)) 0

/-- Python `str.strip()`. -/
def pyStrip (s : Str) : Str :=
  (((s.dropWhile wsc).reverse).dropWhile wsc).reverse

/-- Replace every (maximal) whitespace run by a single `' '`
    (`re.sub(r'\s+', ' ', s)`). -/
def squashWs : Str → Str
  | [] => []
  | [c] => if wsc c then [' '] else [c]
  | c :: d :: t =>
    if wsc c && wsc d then squashWs (d :: t)
    else if wsc c then ' ' :: squashWs (d :: t)
    else c :: squashWs (d :: t)

/-- Python `str.replace` (left-to-right, non-overlapping, the replacement is
    not rescanned).  `skip` counts characters still to swallow from the last
    match, making the recursion structural on the text. -/
def replaceAllGo (k v : Str) : Str → Nat → Str
  | [], _ => []
  | _ :: t, skip + 1 => replaceAllGo k v t skip
  | c :: t, 0 =>
    if leadsWith k (c :: t) then v ++ replaceAllGo k v t (k.length - 1)
    else c :: replaceAllGo k v t 0

def replaceAll (k v s : Str) : Str :=
  if k.isEmpty then s else replaceAllGo k v s 0

/-- The ordered OCR-correction table of `_clean_ocr_text`, with Python dict
    literal semantics applied (duplicate keys collapse onto their first
    position; every duplicate in the source carries the same value). -/
def corrections : List (Str × Str) :=
  [ (txt "Fste@", txt "District"),
    (txt "((aRT", txt "Police Station"),
    (txt "Sot)", txt "Station"),
    (txt "staTst", txt "Station"),
    (txt "AeT@oat", txt "Monday"),
    (txt "2X", txt "2 hours"),
    (txt "STfeT", txt "Street"),
    (txt "3fex)", txt "Street"),
    (txt "TTA,", txt "Street"),
    (txt "1 Tee aA.", txt "1 km approx"),
    (txt "\x7b81", txt "House No"),
    (txt "Stel", txt "Street"),
    (txt "HAN,", txt "Hanuman"),
    (txt "caleit", txt "Colony"),
    (txt "Stec,,", txt "Street"),
    (txt "VoSITENs,,", txt "Vishnu Nagar"),
    (txt "ailurst,", txt "Ailur"),
    (txt "SMT", txt "Street"),
    (txt "Orel", txt "Shri"),
    (txt "galetaR", txt "Gautam"),
    (txt "6971", txt "1997"),
    (txt "ASAT", txt "Street"),
    (txt "dash)", txt "District"),
    (txt "Ariédt", txt "Address"),
    (txt "fAreatearan)", txt "Father/Husband"),
    (txt "Saal", txt "Shri"),
    (txt "Fel", txt "Shri"),
    (txt "SAeaa,", txt "Shri"),
    (txt "Welk", txt "Shri"),
    (txt "sear", txt "Shri"),
    (txt "ara)", txt "Name"),
    (txt "feat:", txt "Date"),
    (txt "3itet", txt "Street"),
    (txt "create:", txt "District"),
    (txt "Rear", txt "Present"),
    (txt "Ze.", txt "No."),
    (txt "det", txt "Present"),
    (txt "PATTON", txt "Present"),
    (txt "feet", txt "Address"),
    (txt "Pwr", txt "Present"),
    (txt "faerard", txt "Address"),
    (txt "HR", txt "House"),
    (txt "Aelaeael", txt "Address"),
    (txt "Tat", txt "Street"),
    (txt "TAT", txt "Street"),
    (txt "caret", txt "Street"),
    (txt "attests", txt "Address"),
    (txt "Yael", txt "Street"),
    (txt "3a", txt "No"),
    (txt "ed", txt "No"),
    (txt "3teTstscla", txt "Address"),
    (txt "let", txt "No"),
    (txt "USAT", txt "Present"),
    (txt "WEN", txt "Address"),
    (txt "seer", txt "Shri"),
    (txt "HAT", txt "Street"),
    (txt "att", txt "Street"),
    (txt "Hace", txt "House"),
    (txt "FeV", txt "No"),
    (txt "Als", txt "No"),
    (txt "cared", txt "Street"),
    (txt "Taweg", txt "Street"),
    (txt "SN.UeT.UE.HoAA", txt "S.No."),
    (txt "IL", txt "Shri"),
    (txt "SOTA", txt "Shri"),
    (txt "THA", txt "Street"),
    (txt "Mee", txt "Street"),
    (txt "SA", txt "Street"),
    (txt "GOR", txt "Street"),
    (txt "Use", txt "No"),
    (txt "TAR", txt "Street"),
    (txt "ah", txt "No"),
    (txt "fate", txt "Street"),
    (txt "act", txt "No"),
    (txt "fe,", txt "No"),
    (txt "Ure", txt "Present"),
    (txt "AT", txt "No"),
    (txt "Udit", txt "Shri"),
    (txt "Tale", txt "Shri"),
    (txt "aired", txt "Shri"),
    (txt "ale", txt "Shri"),
    (txt "Aaell", txt "Shri"),
    (txt "asa)", txt "Name"),
    (txt "He", txt "No") ]

def applyCorrections (s : Str) : Str :=
  corrections.foldl (fun acc kv => replaceAll kv.1 kv.2 acc) s

/-- The allowed-character set of `re.sub(r'[^\w\s.,:/()-]', '', text)`. -/
def isAllowed (c : Char) : Bool :=
  isWordChar c || wsc c || c == '.' || c == ',' || c == ':' || c == '/' ||
    c == '(' || c == ')' || c == '-'

/-- Per-fragment text cleaning of `_clean_ocr_text`; `none` means the
    fragment is dropped. -/
def cleanText (s : Str) : Option Str :=
  let t := pyStrip s
  if t.length < 2 then none
  else
    let t := t.filter isAllowed
    let t := applyCorrections t
    let t := pyStrip (squashWs t)
    if t.isEmpty then none else some t

/-- One OCR fragment (`{'text': ..., 'confidence': ..., 'bbox': ...}`). -/
structure Frag where
  text : Str
  confidence : ℚ
  bbox : List Int
  deriving DecidableEq

def clean_ocr_text (ocr : List Frag) : List Frag :=
  ocr.filterMap (fun it =>
    (cleanText it.text).map (fun t => { it with text := t }))

/-- `sep.join(parts)`. -/
def joinWith (sep : Str) : List Str → Str
  | [] => []
  | [x] => x
  | x :: y :: t => x ++ sep ++ joinWith sep (y :: t)

/-! ## Label-to-boundary span matching

Each source pattern of shape `LABEL.*?:(.*?)(?:\s*B1|...|\s*$)` (with
`re.IGNORECASE`) is embedded through `labelSpan`: leftmost occurrence of a
label alternative followed by a colon somewhere later, first colon after it,
then the lazy group up to the first boundary position. -/

/-- Boundary test for `(?:\s*B1|...|\s*$)` at a suffix. -/
def wsBoundary (bs : List Str) (v : Str) : Bool :=
  bs.any (fun b => leadsWithCI b (v.dropWhile wsc)) || v.all wsc

/-- `(?:L1|L2|...).*?:(.*?)(?:\s*B1|...|\s*$)`, raw group 1.
    Labels are given lower-case; alternatives of the source alternations never
    overlap at one position, so `find?` realises the ordered alternation. -/
def labelSpan (labels bs : List Str) (s : Str) : Option Str :=
  scanFor (fun suf =>
    match labels.find? (fun L => leadsWithCI L suf) with
    | some L => (afterFirstColon (suf.drop L.length)).map (takeUntilB (wsBoundary bs))
    | none => none) s

/-- `(?:L1|...).*?(?:M1|...).*?:(.*?)(?:\s*B1|...|\s*$)`, raw group 1. -/
def labelSpan2 (l1 l2 bs : List Str) (s : Str) : Option Str :=
  scanFor (fun suf =>
    match l1.find? (fun L => leadsWithCI L suf) with
    | some L => labelSpan l2 bs (suf.drop L.length)
    | none => none) s

/-- Strip, then enforce the open length bounds `lo < len < hi` used by the
    source after each label-to-boundary match. -/
def boundedStrip (lo hi : Nat) (g : Str) : Option Str :=
  let v := pyStrip g
  if lo < v.length ∧ v.length < hi then some v else none

/-! ## FIR record data model (the skeleton of `extract_fields`) -/

structure OccurrenceOfOffence where
  Day : Str
  DateFrom : Str
  DateTo : Str
  TimePeriod : Str
  TimeFrom : Str
  TimeTo : Str
  deriving DecidableEq

structure InfoReceivedAtPS where
  Date : Str
  Time : Str
  deriving DecidableEq

structure GeneralDiaryReference where
  EntryNo : Str
  DateTime : Str
  deriving DecidableEq

structure DirectionDistanceFromPS where
  Direction : Str
  Distance : Str
  deriving DecidableEq

structure PlaceOfOccurrence where
  DirectionDistanceFromPS : DirectionDistanceFromPS
  BeatNo : Str
  Address : Str
  DistrictState : Str
  deriving DecidableEq

structure ActSection where
  Act : Str
  Section : Str
  deriving DecidableEq

structure FIRCore where
  District : Str
  PoliceStation : Str
  Year : Nat
  FIRNo : Str
  DateTimeOfFIR : Str
  ActsSections : List ActSection
  OccurrenceOfOffence : OccurrenceOfOffence
  InfoReceivedAtPS : InfoReceivedAtPS
  GeneralDiaryReference : GeneralDiaryReference
  TypeOfInformation : Str
  PlaceOfOccurrence : PlaceOfOccurrence
  deriving DecidableEq

/-- One entry of `Addresses` (`{'Type': ..., 'Address': ...}`; the source key
    `Type` is a reserved word in Lean, hence `AddrType`). -/
structure AddressEntry where
  AddrType : Str
  Address : Str
  deriving DecidableEq

structure ComplainantInformant where
  Name : Str
  FatherOrHusbandName : Str
  DOB_YearOfBirth : Str
  Nationality : Str
  UIDNo : Str
  PassportNo : Str
  IDDetails : List Str
  Occupation : Str
  Addresses : List AddressEntry
  PhoneNumber : Str
  deriving DecidableEq

structure Accused where
  Name : Str
  Alias : Str
  RelativeName : Str
  PresentAddress : Str
  deriving DecidableEq

structure RegisteredCaseInvestigation where
  OfficerName : Str
  Rank : Str
  No : Str
  deriving DecidableEq

structure ActionTaken where
  RegisteredCaseInvestigation : RegisteredCaseInvestigation
  DirectedNameOfIO : Str
  DirectedRank : Str
  DirectedNo : Str
  RefusedInvestigationDueTo : Str
  TransferredPS : Str
  TransferredDistrict : Str
  ROAC : Str
  deriving DecidableEq

structure ComplainantSignature where
  Name : Str
  Rank : Str
  No : Str
  deriving DecidableEq

structure Record where
  FIR : FIRCore
  ComplainantInformant : ComplainantInformant
  AccusedDetails : List Accused
  PropertyOfInterest : List Str
  TotalValueOfPropertyInRs : Str
  Inquest_UDB_CaseNo : List Str
  FirstInformationContents : Str
  ActionTaken : ActionTaken
  ComplainantSignature : ComplainantSignature
  DateTimeOfDispatchToCourt : Str
  AccusedPhysicalDetails : List Str
  deriving DecidableEq

/-- The default-filled skeleton literal of `extract_fields`. -/
def skeletonRecord : Record :=
  { FIR :=
      { District := [], PoliceStation := [], Year := 0, FIRNo := [],
        DateTimeOfFIR := [], ActsSections := [],
        OccurrenceOfOffence :=
          { Day := [], DateFrom := [], DateTo := [], TimePeriod := [],
            TimeFrom := [], TimeTo := [] },
        InfoReceivedAtPS := { Date := [], Time := [] },
        GeneralDiaryReference := { EntryNo := [], DateTime := [] },
        TypeOfInformation := [],
        PlaceOfOccurrence :=
          { DirectionDistanceFromPS := { Direction := [], Distance := [] },
            BeatNo := [], Address := [], DistrictState := [] } },
    ComplainantInformant :=
      { Name := [], FatherOrHusbandName := [], DOB_YearOfBirth := [],
        Nationality := txt "भारत", UIDNo := [], PassportNo := [],
        IDDetails := [], Occupation := [], Addresses := [], PhoneNumber := [] },
    AccusedDetails := [],
    PropertyOfInterest := [],
    TotalValueOfPropertyInRs := [],
    Inquest_UDB_CaseNo := [],
    FirstInformationContents := [],
    ActionTaken :=
      { RegisteredCaseInvestigation := { OfficerName := [], Rank := [], No := [] },
        DirectedNameOfIO := [], DirectedRank := [], DirectedNo := [],
        RefusedInvestigationDueTo := [], TransferredPS := [],
        TransferredDistrict := [], ROAC := [] },
    ComplainantSignature := { Name := [], Rank := [], No := [] },
    DateTimeOfDispatchToCourt := [],
    AccusedPhysicalDetails := [] }

/-! ## `_extract_fir_info` -/

/-- The conditionally-filled dict returned by `_extract_fir_info` (a `none`
    field means the key is absent and `dict.update` leaves the old value). -/
structure FIRInfoOpt where
  FIRNo : Option Str
  DateTimeOfFIR : Option Str
  District : Option Str
  PoliceStation : Option Str
  Year : Option Nat
  TypeOfInformation : Option Str
  deriving DecidableEq

/-- `re.search(r'(\d{2}/\d{2}/\d{4})\s*(\d{2}:\d{2})', s)` joined as
    `f"{g1} {g2}"`. -/
def dateTimeOf (s : Str) : Option Str :=
  scanFor (fun suf =>
    match takeDigitsR 2 suf with
    | some (d1, r1) =>
      match r1 with
      | '/' :: r2 =>
        (match takeDigitsR 2 r2 with
         | some (d2, r3) =>
           match r3 with
           | '/' :: r4 =>
             (match takeDigitsR 4 r4 with
              | some (d3, r5) =>
                (match takeDigitsR 2 (r5.dropWhile wsc) with
                 | some (t1, r6) =>
                   match r6 with
                   | ':' :: r7 =>
                     (match takeDigitsR 2 r7 with
                      | some (t2, _) =>
                        some (d1 ++ '/' :: d2 ++ '/' :: d3 ++ ' ' :: t1 ++ ':' :: t2)
                      | none => none)
                   | _ => none
                 | none => none)
              | none => none)
           | _ => none
         | none => none)
      | _ => none
    | none => none) s

/-- `re.sub(r'[^\w\s]', '', v).strip()` after a first strip, then the open
    bounds check, as done for District / PoliceStation. -/
def wordCleanBounded (lo hi : Nat) (g : Str) : Option Str :=
  let v := pyStrip ((pyStrip g).filter (fun c => isWordChar c || wsc c))
  if lo < v.length ∧ v.length < hi then some v else none

def extract_fir_info (full : Str) : FIRInfoOpt :=
  { FIRNo :=
      scanFor (fun suf =>
        if leadsWithCI (txt "fir") suf then firstDigitRun 4 (suf.drop 3) else none) full,
    DateTimeOfFIR := dateTimeOf full,
    District :=
      (labelSpan [txt "district"] [txt "police", txt "station", txt "year"] full).bind
        (wordCleanBounded 2 50),
    PoliceStation :=
      (labelSpan [txt "p.s.", txt "police station"] [txt "year"] full).bind
        (wordCleanBounded 2 50),
    Year :=
      match firstDigitRun 4 full with
      | some d =>
        let y := natOfDigits d
        if 2000 ≤ y ∧ y ≤ 2030 then some y else none
      | none => none,
    TypeOfInformation :=
      if isSub (txt "लिखित") full || isSub (txt "Written") full then some (txt "लिखित")
      else if isSub (txt "मौखिक") full || isSub (txt "Oral") full then some (txt "मौखिक")
      else none }

/-- `extracted_fields['FIR'].update(fir_info)`. -/
def applyFirInfo (p : FIRInfoOpt) (f : FIRCore) : FIRCore :=
  { f with
    FIRNo := p.FIRNo.getD f.FIRNo,
    DateTimeOfFIR := p.DateTimeOfFIR.getD f.DateTimeOfFIR,
    District := p.District.getD f.District,
    PoliceStation := p.PoliceStation.getD f.PoliceStation,
    Year := p.Year.getD f.Year,
    TypeOfInformation := p.TypeOfInformation.getD f.TypeOfInformation }

/-! ## `_extract_complainant` -/

/-- `re.search(r'(?:DOB|Birth).*?(\d{4})', s, re.IGNORECASE)`, group 1. -/
def dobDigits (s : Str) : Option Str :=
  scanFor (fun suf =>
    if leadsWithCI (txt "dob") suf then firstDigitRun 4 (suf.drop 3)
    else if leadsWithCI (txt "birth") suf then firstDigitRun 4 (suf.drop 5)
    else none) s

def extract_complainant (full : Str) : ComplainantInformant :=
  { Name :=
      ((labelSpan [txt "name"] [txt "father", txt "dob", txt "date"] full).bind
        (boundedStrip 2 100)).getD [],
    FatherOrHusbandName :=
      ((labelSpan2 [txt "father", txt "husband"] [txt "name"] [txt "dob", txt "date"] full).bind
        (boundedStrip 2 100)).getD [],
    DOB_YearOfBirth :=
      match dobDigits full with
      | some d =>
        let y := natOfDigits d
        if 1900 ≤ y ∧ y ≤ 2010 then d else []
      | none => [],
    Nationality := txt "भारत",
    UIDNo := (firstDigitRun 12 full).getD [],
    PassportNo := [],
    IDDetails := [],
    Occupation := [],
    Addresses :=
      match (labelSpan [txt "address"] [txt "phone", txt "mobile"] full).bind
          (boundedStrip 5 200) with
      | some a => [{ AddrType := txt "Present Address", Address := a }]
      | none => [],
    PhoneNumber := (firstDigitRun 10 full).getD [] }

/-! ## `_extract_accused` (the second definition, the one in effect:
`re.findall(r'(?:Accused|आरोपी).*?(?:Name|नाव).*?:(.*?)(?:Alias|उपनाव|$)',
full_text, re.IGNORECASE)`) -/

/-- Boundary `(?:Alias|उपनाव|$)` (no `\s*` here, `$` only at the end). -/
def accBoundary (v : Str) : Bool :=
  leadsWithCI (txt "alias") v || leadsWithCI (txt "उपनाव") v || v.isEmpty

/-- `(?:Name|नाव).*?:` from a given position: first name-label occurrence with
    a colon after it, returning what follows that colon. -/
def accNameColon (s : Str) : Option Str :=
  scanFor (fun suf =>
    if leadsWithCI (txt "name") suf then afterFirstColon (suf.drop 4)
    else if leadsWithCI (txt "नाव") suf then afterFirstColon (suf.drop 3)
    else none) s

/-- Full accused pattern anchored at one position: `some (group1, rest)` where
    `rest` follows the whole match (the `re.findall` scan continues there). -/
def accMatchAt (u : Str) : Option (Str × Str) :=
  let lab : Option Str :=
    if leadsWithCI (txt "accused") u then some (u.drop 7)
    else if leadsWithCI (txt "आरोपी") u then some (u.drop 5)
    else none
  lab.bind (fun after =>
    (accNameColon after).map (fun rest =>
      let g := takeUntilB accBoundary rest
      let tail := rest.drop g.length
      let tail :=
        if leadsWithCI (txt "alias") tail then tail.drop 5
        else if leadsWithCI (txt "उपनाव") tail then tail.drop 5
        else []
      (g, tail)))

/-- The `re.findall` loop (leftmost, non-overlapping). -/
def accFindAll : Nat → Str → List Str
  | 0, _ => []
  | _ + 1, [] => []
  | fuel + 1, c :: t =>
    match accMatchAt (c :: t) with
    | some (g, rest) => g :: accFindAll fuel rest
    | none => accFindAll fuel t

def extract_accused (cleaned : List Frag) : List Accused :=
  let full := joinWith [' '] (cleaned.map (·.text))
  (accFindAll (full.length + 1) full).filterMap (fun g =>
    let n := pyStrip g
    if n.isEmpty then none
    else some { Name := n, Alias := [], RelativeName := [], PresentAddress := [] })

/-! ## `_extract_occurrence` -/

/-- `re.findall(r'(\d{2}/\d{2}/\d{4})', s)`. -/
def dateAt (u : Str) : Option (Str × Str) :=
  match takeDigitsR 2 u with
  | some (d1, '/' :: r2) =>
    (match takeDigitsR 2 r2 with
     | some (d2, '/' :: r4) =>
       (match takeDigitsR 4 r4 with
        | some (d3, r5) => some (d1 ++ '/' :: d2 ++ '/' :: d3, r5)
        | none => none)
     | _ => none)
  | _ => none

/-- `re.findall(r'(\d{2}:\d{2})', s)`. -/
def timeAt (u : Str) : Option (Str × Str) :=
  match takeDigitsR 2 u with
  | some (t1, ':' :: r2) =>
    (match takeDigitsR 2 r2 with
     | some (t2, r3) => some (t1 ++ ':' :: t2, r3)
     | _ => none)
  | _ => none

def findAllPat (pat : Str → Option (Str × Str)) : Nat → Str → List Str
  | 0, _ => []
  | _ + 1, [] => []
  | fuel + 1, c :: t =>
    match pat (c :: t) with
    | some (g, rest) => g :: findAllPat pat fuel rest
    | none => findAllPat pat fuel t

def extract_occurrence (full : Str) : OccurrenceOfOffence :=
  let dates := findAllPat dateAt (full.length + 1) full
  let times := findAllPat timeAt (full.length + 1) full
  { Day :=
      ((labelSpan [txt "day"] [txt "date"] full).bind (boundedStrip 2 20)).getD [],
    DateFrom := (dates.get? 0).getD [],
    DateTo := (dates.get? 1).getD [],
    TimePeriod :=
      ((labelSpan2 [txt "time"] [txt "period"] [txt "time"] full).bind
        (boundedStrip 1 50)).getD [],
    TimeFrom := (times.get? 0).getD [],
    TimeTo := (times.get? 1).getD [] }

/-! ## `_extract_acts_sections` -/

def actName : Str := txt "भारतीय न्याय संहिता (बी एन एस), 2023"

/-- First digit anywhere from here, then the greedy run `\d+`. -/
def firstGreedyRun : Str → Option (Str × Str)
  | [] => none
  | c :: t =>
    if c.isDigit then some (c :: t.takeWhile Char.isDigit, t.dropWhile Char.isDigit)
    else firstGreedyRun t

/-- `(?:Section|BNS).*?(\d+)` anchored at one position. -/
def sectionMatchAt (u : Str) : Option (Str × Str) :=
  if leadsWithCI (txt "section") u then firstGreedyRun (u.drop 7)
  else if leadsWithCI (txt "bns") u then firstGreedyRun (u.drop 3)
  else none

/-- `re.findall(r'\b(\d{2,3})\b', s)`: maximal digit runs of length 2 or 3
    whose neighbours are not word characters.  `prev` is the character just
    before the current suffix (for the left `\b`); after a run the character
    before the rest is a digit, so any digit stands for it. -/
def standaloneRuns : Nat → Option Char → Str → List Str
  | 0, _, _ => []
  | _ + 1, _, [] => []
  | fuel + 1, prev, c :: t =>
    let prevOk := match prev with | some p => !isWordChar p | none => true
    if c.isDigit && prevOk then
      let run := c :: t.takeWhile Char.isDigit
      let rest := t.dropWhile Char.isDigit
      let rightOk := match rest with | [] => true | d :: _ => !isWordChar d
      let ok := (run.length == 2 || run.length == 3) && rightOk
      (if ok then [run] else []) ++ standaloneRuns fuel (some '0') rest
    else standaloneRuns fuel (some c) t

def extract_acts_sections (full : Str) : List ActSection :=
  let primary := findAllPat sectionMatchAt (full.length + 1) full
  if primary.isEmpty then
    match (standaloneRuns (full.length + 1) none full).find?
        (fun d => decide (100 ≤ natOfDigits d) && decide (natOfDigits d ≤ 511)) with
    | some d => [{ Act := actName, Section := d }]
    | none => []
  else primary.map (fun d => { Act := actName, Section := pyStrip d })

/-! ## `_extract_place` and `_extract_action_taken` -/

def extract_place (full : Str) : PlaceOfOccurrence :=
  { DirectionDistanceFromPS :=
      { Direction :=
          ((labelSpan [txt "direction"] [txt "distance", txt "beat"] full).bind
            (boundedStrip 2 100)).getD [],
        Distance :=
          ((labelSpan [txt "distance"] [txt "beat", txt "address"] full).bind
            (boundedStrip 1 50)).getD [] },
    BeatNo :=
      ((labelSpan [txt "beat"] [txt "address"] full).bind (boundedStrip 0 20)).getD [],
    Address :=
      ((labelSpan [txt "address"] [txt "district", txt "state"] full).bind
        (boundedStrip 5 200)).getD [],
    DistrictState := [] }

def extract_action_taken (full : Str) : ActionTaken :=
  { RegisteredCaseInvestigation :=
      { OfficerName :=
          ((labelSpan [txt "officer", txt "name"] [txt "rank"] full).bind
            (boundedStrip 2 100)).getD [],
        Rank :=
          ((labelSpan [txt "rank"] [txt "no"] full).bind (boundedStrip 2 50)).getD [],
        No := ((labelSpan [txt "no"] [] full).bind (boundedStrip 0 20)).getD [] },
    DirectedNameOfIO := [], DirectedRank := [], DirectedNo := [],
    RefusedInvestigationDueTo := [], TransferredPS := [],
    TransferredDistrict := [], ROAC := [] }

/-! ## `_extract_first_information` -/

/-- Token list with `\s*` between consecutive tokens (tokens given
    lower-case); returns the rest after the last token. -/
def tokensCI : List Str → Str → Option Str
  | [], s => some s
  | tok :: rest, s =>
    if leadsWithCI tok s then
      match rest with
      | [] => some (s.drop tok.length)
      | _ :: _ => tokensCI rest ((s.drop tok.length).dropWhile wsc)
    else none

/-- Boundary `(?:Action\s*Taken|$)` (no leading `\s*`). -/
def fiBoundary (v : Str) : Bool :=
  (tokensCI [txt "action", txt "taken"] v).isSome || v.isEmpty

def extract_first_information (full : Str) : Str :=
  match scanFor (fun suf =>
      ((tokensCI [txt "first", txt "information", txt "contents"] suf).orElse
        (fun _ => tokensCI [txt "प्रथम", txt "खबर", txt "अंतर्गत"] suf)).bind
        (fun rest => (afterFirstColon rest).map (takeUntilB fiBoundary))) full with
  | some g => pyStrip g
  | none => []

/-! ## `extract_fields`: skeleton, one `try:` block over the eight field
groups, `except` swallowing any exception. -/

/-- The literal `0.3` of `item.get('confidence', 0) > 0.3`, as the exact
    rational 3/10 (given as an explicit numerator/denominator literal so that
    kernel reduction works on it). -/
def confThreshold : ℚ := ⟨3, 10, by norm_num, by norm_num⟩

def cleanedOf (ocr : List Frag) : List Frag :=
  clean_ocr_text (ocr.filter (fun it => confThreshold < it.confidence))

def fullTextOf (ocr : List Frag) : Str :=
  joinWith [' '] ((cleanedOf ocr).map (·.text))

/-- One statement of the `try:` block (group `i`). -/
def applyGroup (i : Nat) (cleaned : List Frag) (full : Str) (r : Record) : Record :=
  match i with
  | 0 => { r with FIR := applyFirInfo (extract_fir_info full) r.FIR }
  | 1 => { r with ComplainantInformant := extract_complainant full }
  | 2 => { r with AccusedDetails := extract_accused cleaned }
  | 3 => { r with FIR := { r.FIR with OccurrenceOfOffence := extract_occurrence full } }
  | 4 => { r with FIR := { r.FIR with ActsSections := extract_acts_sections full } }
  | 5 => { r with FIR := { r.FIR with PlaceOfOccurrence := extract_place full } }
  | 6 => { r with ActionTaken := extract_action_taken full }
  | 7 => { r with FirstInformationContents := extract_first_information full }
  | _ => r

/-- The `try:` block: groups run in order; a raise (fault injection, see file
    header) aborts the remaining statements, keeping the state reached. -/
def runSeq (fault : Option Nat) (cleaned : List Frag) (full : Str) :
    List Nat → Record → Record × Option Unit
  | [], r => (r, none)
  | i :: rest, r =>
    match fault with
    | some k =>
      if k = i then (r, some ())
      else runSeq fault cleaned full rest (applyGroup i cleaned full r)
    | none => runSeq fault cleaned full rest (applyGroup i cleaned full r)

def groupIdx : List Nat := [0, 1, 2, 3, 4, 5, 6, 7]

/-- Whole `extract_fields` body; the second component is the exception (if
    any) escaping the call — the `except` clause always swallows it. -/
def extract_fields_outcome (fault : Option Nat) (ocr : List Frag) :
    Record × Option Unit :=
  let cleaned := cleanedOf ocr
  let full := fullTextOf ocr
  match runSeq fault cleaned full groupIdx skeletonRecord with
  | (r, some _) => (r, none)
  | (r, none) => (r, none)

def extract_fields (fault : Option Nat) (ocr : List Frag) : Record :=
  (extract_fields_outcome fault ocr).1

/-! ## TrainingService (`training_service.py`)

A training sample's ground truth is read only at four paths
(`FIR.FIRNo`, `FIR.District`, `FIR.PoliceStation`,
`ComplainantInformant.Name`); the sample model carries exactly those. -/

structure Sample where
  file_id : Str
  gtFIRNo : Str
  gtDistrict : Str
  gtPoliceStation : Str
  gtComplainantName : Str
  deriving DecidableEq

/-- The character class escaped by Python 3.7+ `re.escape`. -/
def reSpecial : List Char :=
  ['(', ')', '[', ']', '\x7b', '\x7d', '?', '*', '+', '-', '|', '^', '$',
   '\\', '.', '&', '~', '#', ' ', '\t', '\n', '\r', '\x0b', '\x0c']

def reEscape (s : Str) : Str :=
  s.foldr (fun c acc => if c ∈ reSpecial then '\\' :: c :: acc else c :: acc) []

/-- Python `'|'.join`. -/
def joinBar (l : List Str) : Str := joinWith ['|'] l

/-- The result of `_analyze_training_samples` (a dict with at most these four
    keys; `none` = key absent). -/
structure ImprovedPatterns where
  fir_no : Option Str
  district : Option Str
  police_station : Option Str
  complainant_name : Option Str
  deriving DecidableEq

/-- The fixed "more flexible" FIR-number pattern installed whenever any
    sample has a non-empty FIR number. -/
def flexFirPat : Str := txt "FIR\\s*No\\.?\\s*:?\\s*(\\d\x7b4\x7d)"

def districtVals (samples : List Sample) : List Str :=
  samples.filterMap (fun s => if s.gtDistrict.isEmpty then none else some (reEscape s.gtDistrict))

def psVals (samples : List Sample) : List Str :=
  samples.filterMap (fun s =>
    if s.gtPoliceStation.isEmpty then none else some (reEscape s.gtPoliceStation))

def nameVals (samples : List Sample) : List Str :=
  samples.filterMap (fun s =>
    if s.gtComplainantName.isEmpty then none else some (reEscape s.gtComplainantName))

def mkDistrictPat (alt : Str) : Str :=
  txt "(?:District|जिला).*?:\\s*(" ++ alt ++ txt ")"

def mkPsPat (alt : Str) : Str :=
  txt "(?:P\\.S\\.|Police Station|थाने).*?:\\s*(" ++ alt ++ txt ")"

def mkNamePat (alt : Str) : Str :=
  txt "(?:Name|नाव).*?:\\s*(" ++ alt ++ txt "|\\w+(?:\\s+\\w+)*)"

def analyze_training_samples (samples : List Sample) : ImprovedPatterns :=
  { fir_no :=
      if (samples.filterMap (fun s =>
            if s.gtFIRNo.isEmpty then none else some s.gtFIRNo)).isEmpty
      then none else some flexFirPat,
    district :=
      if (districtVals samples).isEmpty then none
      else some (mkDistrictPat (joinBar ((districtVals samples).take 5))),
    police_station :=
      if (psVals samples).isEmpty then none
      else some (mkPsPat (joinBar ((psVals samples).take 5))),
    complainant_name :=
      if (nameVals samples).isEmpty then none
      else some (mkNamePat (joinBar ((nameVals samples).take 3))) }

/-- The non-fir_no entries of the improved dict, in construction order. -/
def improvedTail (p : ImprovedPatterns) : List (Str × Str) :=
  (p.district.map (fun v => (txt "district", v))).toList ++
  (p.police_station.map (fun v => (txt "police_station", v))).toList ++
  (p.complainant_name.map (fun v => (txt "complainant_name", v))).toList

/-- The list of (rule name, pattern) entries the improved dict holds, in
    construction order. -/
def improvedList (p : ImprovedPatterns) : List (Str × Str) :=
  (p.fir_no.map (fun v => (txt "fir_no", v))).toList ++ improvedTail p

/-- Name → pattern mapping with `dict` semantics (insertion order kept). -/
abbrev PatternMap : Type := List (Str × Str)

def dictGet (k : Str) : PatternMap → Option Str
  | [] => none
  | kv :: t => if kv.1 = k then some kv.2 else dictGet k t

/-- `d[k] = v` (replace in place, or append). -/
def dictSet (m : PatternMap) (k v : Str) : PatternMap :=
  if (dictGet k m).isSome
  then m.map (fun kv => if kv.1 = k then (k, v) else kv)
  else m ++ [(k, v)]

/-- `d.update(overrides)`. -/
def dictUpdate (m : PatternMap) (overrides : List (Str × Str)) : PatternMap :=
  overrides.foldl (fun acc kv => dictSet acc kv.1 kv.2) m

/-- The 18 baseline patterns of `FIRExtractionService.__init__`. -/
def basePatterns : PatternMap :=
  [ (txt "fir_no", txt "FIR\\s*No\\.\\s*:\\s*(\\d\x7b4\x7d)"),
    (txt "date_time",
     txt "Date\\s*and\\s*Time\\s*of\\s*FIR.*?:.*?(\\d\x7b2\x7d/\\d\x7b2\x7d/\\d\x7b4\x7d)\\s*(\\d\x7b2\x7d:\\d\x7b2\x7d)"),
    (txt "district", txt "District.*?:\\s*(.*?)(?:\\s*Year|\\s*$)"),
    (txt "police_station", txt "P\\.S\\..*?:\\s*(.*?)(?:\\s*Year|\\s*$)"),
    (txt "year", txt "Year.*?:\\s*(\\d\x7b4\x7d)"),
    (txt "mobile", txt "(?:मोब\\.?नं\\.?|Mobile|Phone).*?(\\d\x7b10\x7d)"),
    (txt "complainant_name",
     txt "(?:Complainant|फिर्यादी|Informant).*?(?:Name|नाव).*?:(.*?)(?:Father|वडील|$)"),
    (txt "father_name", txt "(?:Father|वडील).*?(?:Name|नाव).*?:(.*?)(?:DOB|वय|$)"),
    (txt "dob", txt "(?:DOB|Date.*Birth|वय).*?(\\d\x7b4\x7d)"),
    (txt "address", txt "(?:Address|पत्ता).*?:(.*?)(?:Phone|Mobile|$)"),
    (txt "acts_sections",
     txt "(?:भारतीय न्याय संहिता|Indian Penal Code|BNS).*?(\\d+)"),
    (txt "day", txt "Day.*?:\\s*(.*?)(?:\\s*Date|$)"),
    (txt "time_period", txt "Time\\s*Period.*?:\\s*(.*?)(?:\\s*Time|$)"),
    (txt "direction", txt "Direction.*?:\\s*(.*?)(?:\\s*Distance|$)"),
    (txt "distance", txt "Distance.*?:\\s*(.*?)(?:\\s*Beat|$)"),
    (txt "officer_name",
     txt "(?:Officer|अधिकारी).*?(?:Name|नाव).*?:(.*?)(?:Rank|पद|$)"),
    (txt "rank", txt "Rank.*?:\\s*(.*?)(?:\\s*No|$)"),
    (txt "officer_no", txt "No\\.\\s*:\\s*(.*?)(?:\\s*$)") ]

/-- `FIRExtractionService.__init__` + `_load_improved_patterns`: baseline
    rules merged with the persisted improved-pattern file (if present). -/
def loadPatterns (file : Option PatternMap) : PatternMap :=
  match file with
  | none => basePatterns
  | some m => dictUpdate basePatterns m

/-- Result of `retrain_model`, together with its two effects: the patterns
    dict of the freshly constructed `FIRExtractionService` (which the
    function then discards), and the persisted pattern file afterwards. -/
structure RetrainOutcome where
  status : Str
  freshPatterns : Option PatternMap
  fileAfter : Option PatternMap
  deriving DecidableEq

def retrain_model (samples : List Sample) (fileBefore : Option PatternMap) :
    RetrainOutcome :=
  if samples.length < 5 then
    { status := txt "insufficient_data", freshPatterns := none, fileAfter := fileBefore }
  else
    let improved := improvedList (analyze_training_samples samples)
    { status := txt "success",
      freshPatterns := some (dictUpdate (loadPatterns fileBefore) improved),
      fileAfter := some improved }

/-! ## Definitions written from the claims' wording (for refutation /
refinement comparisons only; everything above is translated from the
source). -/

/-- C5's wording: "the first 4-digit run in the full text whose value lies in
    the range [2000,2030]", and 0 when no in-range run exists. -/
def claimedFirstYearInRange (s : Str) : Nat :=
  (scanFor (fun suf =>
    (takeDigitsR 4 suf).bind (fun p =>
      let y := natOfDigits p.1
      if 2000 ≤ y ∧ y ≤ 2030 then some y else none)) s).getD 0

/-- Keep the first occurrence of each value ("the distinct values"). -/
def dedupKeepFirst (l : List Str) : List Str :=
  l.foldl (fun acc v => if v ∈ acc then acc else acc ++ [v]) []

/-- C7's wording for the district rule: distinct non-empty ground-truth
    values, truncated to the top-5 cap, each regex-escaped, as a
    literal-alternation pattern anchored to the field's label. -/
def claimedDistrictPattern (samples : List Sample) : Option Str :=
  let vals := dedupKeepFirst (samples.filterMap (fun s =>
    if s.gtDistrict.isEmpty then none else some s.gtDistrict))
  if vals.isEmpty then none
  else some (mkDistrictPat (joinBar ((vals.take 5).map reEscape)))

/-- C4's wording: every declared key at every nesting level holds an empty
    string, an empty list, or zero. -/
def allZeroEmpty (r : Record) : Bool :=
  r.FIR.District.isEmpty && r.FIR.PoliceStation.isEmpty && r.FIR.Year == 0 &&
  r.FIR.FIRNo.isEmpty && r.FIR.DateTimeOfFIR.isEmpty &&
  r.FIR.ActsSections.isEmpty &&
  r.FIR.OccurrenceOfOffence.Day.isEmpty &&
  r.FIR.OccurrenceOfOffence.DateFrom.isEmpty &&
  r.FIR.OccurrenceOfOffence.DateTo.isEmpty &&
  r.FIR.OccurrenceOfOffence.TimePeriod.isEmpty &&
  r.FIR.OccurrenceOfOffence.TimeFrom.isEmpty &&
  r.FIR.OccurrenceOfOffence.TimeTo.isEmpty &&
  r.FIR.InfoReceivedAtPS.Date.isEmpty && r.FIR.InfoReceivedAtPS.Time.isEmpty &&
  r.FIR.GeneralDiaryReference.EntryNo.isEmpty &&
  r.FIR.GeneralDiaryReference.DateTime.isEmpty &&
  r.FIR.TypeOfInformation.isEmpty &&
  r.FIR.PlaceOfOccurrence.DirectionDistanceFromPS.Direction.isEmpty &&
  r.FIR.PlaceOfOccurrence.DirectionDistanceFromPS.Distance.isEmpty &&
  r.FIR.PlaceOfOccurrence.BeatNo.isEmpty &&
  r.FIR.PlaceOfOccurrence.Address.isEmpty &&
  r.FIR.PlaceOfOccurrence.DistrictState.isEmpty &&
  r.ComplainantInformant.Name.isEmpty &&
  r.ComplainantInformant.FatherOrHusbandName.isEmpty &&
  r.ComplainantInformant.DOB_YearOfBirth.isEmpty &&
  r.ComplainantInformant.Nationality.isEmpty &&
  r.ComplainantInformant.UIDNo.isEmpty &&
  r.ComplainantInformant.PassportNo.isEmpty &&
  r.ComplainantInformant.IDDetails.isEmpty &&
  r.ComplainantInformant.Occupation.isEmpty &&
  r.ComplainantInformant.Addresses.isEmpty &&
  r.ComplainantInformant.PhoneNumber.isEmpty &&
  r.AccusedDetails.isEmpty && r.PropertyOfInterest.isEmpty &&
  r.TotalValueOfPropertyInRs.isEmpty && r.Inquest_UDB_CaseNo.isEmpty &&
  r.FirstInformationContents.isEmpty &&
  r.ActionTaken.RegisteredCaseInvestigation.OfficerName.isEmpty &&
  r.ActionTaken.RegisteredCaseInvestigation.Rank.isEmpty &&
  r.ActionTaken.RegisteredCaseInvestigation.No.isEmpty &&
  r.ActionTaken.DirectedNameOfIO.isEmpty && r.ActionTaken.DirectedRank.isEmpty &&
  r.ActionTaken.DirectedNo.isEmpty &&
  r.ActionTaken.RefusedInvestigationDueTo.isEmpty &&
  r.ActionTaken.TransferredPS.isEmpty && r.ActionTaken.TransferredDistrict.isEmpty &&
  r.ActionTaken.ROAC.isEmpty &&
  r.ComplainantSignature.Name.isEmpty && r.ComplainantSignature.Rank.isEmpty &&
  r.ComplainantSignature.No.isEmpty &&
  r.DateTimeOfDispatchToCourt.isEmpty && r.AccusedPhysicalDetails.isEmpty

/-- Same check with the single exception the code actually has: the
    complainant `Nationality` defaults to the literal "भारत". -/
def allZeroEmptyExceptNationality (r : Record) : Bool :=
  allZeroEmpty { r with ComplainantInformant := { r.ComplainantInformant with Nationality := [] } }
    && r.ComplainantInformant.Nationality == txt "भारत"

/-! ## Field-group regions of the record (one per statement of the `try:`
block), for the failure-isolation claims. -/

/-- The six scalar FIR-core fields written by `_extract_fir_info`. -/
structure FIRScalars where
  District : Str
  PoliceStation : Str
  Year : Nat
  FIRNo : Str
  DateTimeOfFIR : Str
  TypeOfInformation : Str
  deriving DecidableEq

def RegionTy : Nat → Type
  | 0 => FIRScalars
  | 1 => ComplainantInformant
  | 2 => List Accused
  | 3 => OccurrenceOfOffence
  | 4 => List ActSection
  | 5 => PlaceOfOccurrence
  | 6 => ActionTaken
  | 7 => Str
  | _ + 8 => Unit

/-- What group `j` writes: its projection out of the record. -/
def regionOf : (j : Nat) → Record → RegionTy j
  | 0, r => { District := r.FIR.District, PoliceStation := r.FIR.PoliceStation,
              Year := r.FIR.Year, FIRNo := r.FIR.FIRNo,
              DateTimeOfFIR := r.FIR.DateTimeOfFIR,
              TypeOfInformation := r.FIR.TypeOfInformation }
  | 1, r => r.ComplainantInformant
  | 2, r => r.AccusedDetails
  | 3, r => r.FIR.OccurrenceOfOffence
  | 4, r => r.FIR.ActsSections
  | 5, r => r.FIR.PlaceOfOccurrence
  | 6, r => r.ActionTaken
  | 7, r => r.FirstInformationContents
  | _ + 8, _ => ()

def regionEq (j : Nat) (r r' : Record) : Prop := regionOf j r = regionOf j r'

instance (j : Nat) : DecidableEq (RegionTy j) := by
  match j with
  | 0 => exact inferInstanceAs (DecidableEq FIRScalars)
  | 1 => exact inferInstanceAs (DecidableEq ComplainantInformant)
  | 2 => exact inferInstanceAs (DecidableEq (List Accused))
  | 3 => exact inferInstanceAs (DecidableEq OccurrenceOfOffence)
  | 4 => exact inferInstanceAs (DecidableEq (List ActSection))
  | 5 => exact inferInstanceAs (DecidableEq PlaceOfOccurrence)
  | 6 => exact inferInstanceAs (DecidableEq ActionTaken)
  | 7 => exact inferInstanceAs (DecidableEq Str)
  | _ + 8 => exact inferInstanceAs (DecidableEq Unit)

instance (j : Nat) (r r' : Record) : Decidable (regionEq j r r') := by
  unfold regionEq; exact inferInstance

/-! ## Lemmas about the text normalizer -/

/-- The first character (if any) fails `p`. -/
def noLead (p : Char → Bool) : Str → Prop
  | [] => True
  | c :: _ => p c = false

theorem dropWhile_eq_self_of_noLead {p : Char → Bool} {y : Str} (h : noLead p y) :
    y.dropWhile p = y := by
  cases y with
  | nil => rfl
  | cons c t => simp only [noLead] at h; simp [List.dropWhile_cons, h]

theorem noLead_dropWhile (p : Char → Bool) (y : Str) : noLead p (y.dropWhile p) := by
  induction y with
  | nil => trivial
  | cons c t ih =>
    by_cases h : p c = true
    · simpa [List.dropWhile_cons, h] using ih
    · simp only [Bool.not_eq_true] at h
      simp [List.dropWhile_cons, h, noLead]

theorem pyStrip_eq_dropWhile_append (u : Str) :
    ∃ b, u.dropWhile wsc = pyStrip u ++ b := by
  refine ⟨((u.dropWhile wsc).reverse.takeWhile wsc).reverse, ?_⟩
  have h1 := List.takeWhile_append_dropWhile wsc (u.dropWhile wsc).reverse
  have h2 := congrArg List.reverse h1
  rw [List.reverse_append, List.reverse_reverse] at h2
  exact h2.symm

theorem pyStrip_decomp (u : Str) : ∃ a b, u = a ++ pyStrip u ++ b := by
  obtain ⟨b, hb⟩ := pyStrip_eq_dropWhile_append u
  refine ⟨u.takeWhile wsc, b, ?_⟩
  calc u = u.takeWhile wsc ++ u.dropWhile wsc := (List.takeWhile_append_dropWhile wsc u).symm
    _ = u.takeWhile wsc ++ (pyStrip u ++ b) := by rw [hb]
    _ = u.takeWhile wsc ++ pyStrip u ++ b := (List.append_assoc _ _ _).symm

theorem noLead_pyStrip (u : Str) : noLead wsc (pyStrip u) := by
  obtain ⟨b, hb⟩ := pyStrip_eq_dropWhile_append u
  have hd := noLead_dropWhile wsc u
  cases hp : pyStrip u with
  | nil => trivial
  | cons c t =>
    rw [hp] at hb
    rw [hb] at hd
    exact hd

theorem noLead_rev_pyStrip (u : Str) : noLead wsc (pyStrip u).reverse := by
  have h : (pyStrip u).reverse = (u.dropWhile wsc).reverse.dropWhile wsc := by
    simp [pyStrip]
  rw [h]
  exact noLead_dropWhile wsc _

theorem pyStrip_fix {y : Str} (h1 : noLead wsc y) (h2 : noLead wsc y.reverse) :
    pyStrip y = y := by
  unfold pyStrip
  rw [dropWhile_eq_self_of_noLead h1, dropWhile_eq_self_of_noLead h2, List.reverse_reverse]

theorem pyStrip_idem (x : Str) : pyStrip (pyStrip x) = pyStrip x :=
  pyStrip_fix (noLead_pyStrip x) (noLead_rev_pyStrip x)

/-- No two adjacent whitespace characters. -/
def noAdjWs : Str → Prop
  | [] => True
  | [_] => True
  | c :: d :: t => ¬(wsc c = true ∧ wsc d = true) ∧ noAdjWs (d :: t)

theorem noAdjWs_cons_elim {c : Char} {z : Str} (h : noAdjWs (c :: z)) : noAdjWs z := by
  cases z with
  | nil => trivial
  | cons d t => exact h.2

theorem noAdjWs_cons_of_head {c : Char} {z : Str} (hz : noAdjWs z) (hc : wsc c = false) :
    noAdjWs (c :: z) := by
  cases z with
  | nil => trivial
  | cons d t => exact ⟨by simp [hc], hz⟩

theorem noAdjWs_cons_cons {x d : Char} {t : Str} (hd : wsc d = false)
    (h : noAdjWs (d :: t)) : noAdjWs (x :: d :: t) :=
  ⟨by simp [hd], h⟩

theorem noAdjWs_append_right : ∀ {x y : Str}, noAdjWs (x ++ y) → noAdjWs y := by
  intro x
  induction x with
  | nil => intro y h; exact h
  | cons c t ih => intro y h; exact ih (noAdjWs_cons_elim h)

theorem noAdjWs_append_left : ∀ {x y : Str}, noAdjWs (x ++ y) → noAdjWs x := by
  intro x
  induction x with
  | nil => intro y _; trivial
  | cons c t ih =>
    intro y h
    cases t with
    | nil => trivial
    | cons d t' =>
      exact ⟨h.1, ih (noAdjWs_cons_elim h)⟩

theorem noAdjWs_of_decomp {a v b : Str} (h : noAdjWs (a ++ v ++ b)) : noAdjWs v :=
  noAdjWs_append_right (noAdjWs_append_left h)

/-- Head of `squashWs (d :: t)` is `d` when `d` is not whitespace. -/
theorem squash_head {d : Char} (t : Str) (h : wsc d = false) :
    ∃ t', squashWs (d :: t) = d :: t' := by
  cases t with
  | nil => exact ⟨[], by simp [squashWs, h]⟩
  | cons e t' => exact ⟨squashWs (e :: t'), by simp [squashWs, h]⟩

theorem noAdjWs_squash (x : Str) : noAdjWs (squashWs x) := by
  induction x using squashWs.induct
  case case1 => trivial
  case case2 c h => simp only [squashWs, h, if_pos]; trivial
  case case3 c h => simp only [squashWs]; rw [if_neg h]; trivial
  case case4 c d t h ih => simpa [squashWs, h] using ih
  case case5 c d t h1 h2 ih =>
    have hd : wsc d = false := by
      by_contra hC
      rw [Bool.not_eq_false] at hC
      exact h1 (by simp [h2, hC])
    obtain ⟨t', ht'⟩ := squash_head t hd
    simp only [squashWs]
    rw [if_neg h1, if_pos h2, ht']
    rw [ht'] at ih
    exact noAdjWs_cons_cons hd ih
  case case6 c d t h1 h2 ih =>
    simp only [squashWs]
    rw [if_neg h1, if_neg h2]
    exact noAdjWs_cons_of_head ih (by simpa using h2)

theorem squash_ws_space (x : Str) : ∀ c ∈ squashWs x, wsc c = true → c = ' ' := by
  induction x using squashWs.induct
  case case1 => intro c hc; simp [squashWs] at hc
  case case2 c h =>
    intro e he _
    simp only [squashWs, h, if_pos, List.mem_singleton] at he
    exact he
  case case3 c h =>
    intro e he hw
    simp only [squashWs] at he
    rw [if_neg h] at he
    simp only [List.mem_singleton] at he
    subst he
    exact absurd hw h
  case case4 c d t h ih =>
    intro e he hw
    simp only [squashWs, h, if_pos] at he
    exact ih e he hw
  case case5 c d t h1 h2 ih =>
    intro e he hw
    simp only [squashWs] at he
    rw [if_neg h1, if_pos h2] at he
    rcases List.mem_cons.mp he with h | h
    · exact h
    · exact ih e h hw
  case case6 c d t h1 h2 ih =>
    intro e he hw
    simp only [squashWs] at he
    rw [if_neg h1, if_neg h2] at he
    rcases List.mem_cons.mp he with h | h
    · subst h; exact absurd hw (by simpa using h2)
    · exact ih e h hw

theorem squash_eq_self : ∀ {y : Str}, noAdjWs y →
    (∀ c ∈ y, wsc c = true → c = ' ') → squashWs y = y := by
  intro y
  induction y using squashWs.induct
  case case1 => intro _ _; rfl
  case case2 c h =>
    intro _ h2
    have : c = ' ' := h2 c (by simp) h
    simp [squashWs, h, this]
  case case3 c h => intro _ _; simp only [squashWs]; rw [if_neg h]
  case case4 c d t h ih =>
    intro h1 _
    rcases (by simpa using h : wsc c = true ∧ wsc d = true) with ⟨hc, hd⟩
    exact absurd ⟨hc, hd⟩ h1.1
  case case5 c d t h1 h2 ih =>
    intro ha hm
    have hc : c = ' ' := hm c (by simp) h2
    simp only [squashWs]
    rw [if_neg h1, if_pos h2]
    rw [ih (noAdjWs_cons_elim ha) (fun e he hw => hm e (by simp [he]) hw), hc]
  case case6 c d t h1 h2 ih =>
    intro ha hm
    simp only [squashWs]
    rw [if_neg h1, if_neg h2]
    rw [ih (noAdjWs_cons_elim ha) (fun e he hw => hm e (by simp [he]) hw)]

theorem all_of_decomp {q : Char → Bool} {a v b : Str}
    (h : (a ++ v ++ b).all q = true) : v.all q = true := by
  simp only [List.all_append, Bool.and_eq_true] at h
  exact h.1.2

theorem all_pyStrip {q : Char → Bool} {u : Str} (h : u.all q = true) :
    (pyStrip u).all q = true := by
  obtain ⟨a, b, hab⟩ := pyStrip_decomp u
  rw [hab] at h
  exact all_of_decomp h

theorem all_squash {q : Char → Bool} (hsp : q ' ' = true) :
    ∀ {x : Str}, x.all q = true → (squashWs x).all q = true := by
  intro x
  induction x using squashWs.induct
  case case1 => intro _; rfl
  case case2 c h => intro _; simp [squashWs, h, hsp]
  case case3 c h => intro hx; simp only [squashWs]; rw [if_neg h]; exact hx
  case case4 c d t h ih =>
    intro hx
    simp only [List.all_cons, Bool.and_eq_true] at hx
    simp only [squashWs, h, if_pos]
    exact ih (by simp [hx.2.1, hx.2.2])
  case case5 c d t h1 h2 ih =>
    intro hx
    simp only [List.all_cons, Bool.and_eq_true] at hx
    simp only [squashWs]
    rw [if_neg h1, if_pos h2]
    simp only [List.all_cons, Bool.and_eq_true]
    exact ⟨hsp, ih (by simp [hx.2.1, hx.2.2])⟩
  case case6 c d t h1 h2 ih =>
    intro hx
    simp only [List.all_cons, Bool.and_eq_true] at hx
    simp only [squashWs]
    rw [if_neg h1, if_neg h2]
    simp only [List.all_cons, Bool.and_eq_true]
    exact ⟨hx.1, ih (by simp [hx.2.1, hx.2.2])⟩

theorem all_drop {q : Char → Bool} (n : Nat) :
    ∀ {s : Str}, s.all q = true → (s.drop n).all q = true := by
  intro s h
  rw [List.all_eq_true] at h ⊢
  intro c hc
  exact h c (List.drop_subset n s hc)

theorem all_replaceAllGo {q : Char → Bool} {k v : Str} (hv : v.all q = true) :
    ∀ {s : Str} (skip : Nat), s.all q = true → (replaceAllGo k v s skip).all q = true := by
  intro s
  induction s with
  | nil => intro skip _; rfl
  | cons c t ih =>
    intro skip h
    simp only [List.all_cons, Bool.and_eq_true] at h
    cases skip with
    | succ n => exact ih n h.2
    | zero =>
      simp only [replaceAllGo]
      split
      · simp only [List.all_append, Bool.and_eq_true]
        exact ⟨hv, ih _ h.2⟩
      · simp only [List.all_cons, Bool.and_eq_true]
        exact ⟨h.1, ih 0 h.2⟩

theorem all_replaceAll {q : Char → Bool} {k v s : Str} (hv : v.all q = true)
    (h : s.all q = true) : (replaceAll k v s).all q = true := by
  unfold replaceAll
  split
  · exact h
  · exact all_replaceAllGo hv _ h

theorem all_foldl_replace {q : Char → Bool} :
    ∀ (table : List (Str × Str)) {s : Str}, (∀ kv ∈ table, kv.2.all q = true) →
      s.all q = true →
      (table.foldl (fun acc kv => replaceAll kv.1 kv.2 acc) s).all q = true := by
  intro table
  induction table with
  | nil => intro s _ h; exact h
  | cons kv t ih =>
    intro s htab h
    simp only [List.foldl_cons]
    exact ih (fun x hx => htab x (by simp [hx]))
      (all_replaceAll (htab kv (by simp)) h)

theorem corrections_vals_allowed :
    ∀ kv ∈ corrections, kv.2.all isAllowed = true := by decide

theorem all_filter_self {q : Char → Bool} (l : Str) : (l.filter q).all q = true := by
  rw [List.all_eq_true]
  intro c hc
  exact (List.mem_filter.mp hc).2

/-! Fixed-point lemmas for one `replaceAll` pass / the correction fold. -/

theorem isSub_cons_split {k : Str} {c : Char} {t : Str} (h : isSub k (c :: t) = false) :
    leadsWith k (c :: t) = false ∧ isSub k t = false := by
  simp only [isSub, Bool.or_eq_false_iff] at h
  exact h

theorem replaceAllGo_not_sub {k v : Str} :
    ∀ {s : Str}, isSub k s = false → replaceAllGo k v s 0 = s := by
  intro s
  induction s with
  | nil => intro _; rfl
  | cons c t ih =>
    intro h
    obtain ⟨h1, h2⟩ := isSub_cons_split h
    simp only [replaceAllGo]
    rw [if_neg (by simp [h1])]
    rw [ih h2]

theorem replaceAll_not_sub {k v s : Str} (h : isSub k s = false) :
    replaceAll k v s = s := by
  unfold replaceAll
  split
  · rfl
  · exact replaceAllGo_not_sub h

theorem foldl_replace_not_sub :
    ∀ (table : List (Str × Str)) {t : Str}, (∀ kv ∈ table, isSub kv.1 t = false) →
      table.foldl (fun acc kv => replaceAll kv.1 kv.2 acc) t = t := by
  intro table
  induction table with
  | nil => intro t _; rfl
  | cons kv tab ih =>
    intro t h
    simp only [List.foldl_cons]
    rw [replaceAll_not_sub (h kv (by simp))]
    exact ih (fun x hx => h x (by simp [hx]))

theorem applyCorrections_not_sub {t : Str}
    (h : ∀ kv ∈ corrections, isSub kv.1 t = false) : applyCorrections t = t :=
  foldl_replace_not_sub corrections h

theorem cleanText_some_shape {s t : Str} (h : cleanText s = some t) :
    t = pyStrip (squashWs (applyCorrections ((pyStrip s).filter isAllowed))) := by
  simp only [cleanText] at h
  split at h
  · exact absurd h (by simp)
  · split at h
    · exact absurd h (by simp)
    · exact (Option.some.inj h).symm

theorem noAdjWs_pyStrip {X : Str} (h : noAdjWs X) : noAdjWs (pyStrip X) := by
  obtain ⟨a, b, hab⟩ := pyStrip_decomp X
  rw [hab] at h
  exact noAdjWs_of_decomp h

theorem mem_of_mem_pyStrip {X : Str} {c : Char} (hc : c ∈ pyStrip X) : c ∈ X := by
  obtain ⟨a, b, hab⟩ := pyStrip_decomp X
  rw [hab]
  exact List.mem_append.mpr (Or.inl (List.mem_append.mpr (Or.inr hc)))

theorem cleanText_fix {s t : Str} (h : cleanText s = some t)
    (hk : ∀ kv ∈ corrections, isSub kv.1 t = false) (hl : 2 ≤ t.length) :
    cleanText t = some t := by
  have hshape := cleanText_some_shape h
  obtain ⟨u, hu⟩ : ∃ u, u = applyCorrections ((pyStrip s).filter isAllowed) := ⟨_, rfl⟩
  rw [← hu] at hshape
  have hsp : isAllowed ' ' = true := by decide
  have hu_all : u.all isAllowed = true := by
    rw [hu]
    exact all_foldl_replace corrections corrections_vals_allowed (all_filter_self _)
  have h2 : (squashWs u).all isAllowed = true := all_squash hsp hu_all
  have hall : t.all isAllowed = true := by rw [hshape]; exact all_pyStrip h2
  have hstrip : pyStrip t = t := by rw [hshape]; exact pyStrip_idem (squashWs u)
  have hadj : noAdjWs (squashWs u) := noAdjWs_squash u
  have hcanonA : noAdjWs t := by rw [hshape]; exact noAdjWs_pyStrip hadj
  have hcanonB : ∀ c ∈ t, wsc c = true → c = ' ' := by
    intro c hc hw
    rw [hshape] at hc
    exact squash_ws_space u c (mem_of_mem_pyStrip hc) hw
  have hsq : squashWs t = t := squash_eq_self hcanonA hcanonB
  have hfil : t.filter isAllowed = t :=
    List.filter_eq_self.mpr (List.all_eq_true.mp hall)
  have hcorr : applyCorrections t = t := applyCorrections_not_sub hk
  have hne : ¬ t.isEmpty = true := by
    cases t with
    | nil => simp at hl
    | cons c t' => simp
  simp only [cleanText]
  rw [hstrip]
  rw [if_neg (by omega : ¬ t.length < 2)]
  rw [hfil, hcorr, hsq, hstrip]
  rw [if_neg hne]

/-! ## Structural lemmas about the `try:` block -/

def applyList (gs : List Nat) (cleaned : List Frag) (full : Str) (r : Record) : Record :=
  gs.foldl (fun acc i => applyGroup i cleaned full acc) r

theorem runSeq_none_fold (cleaned : List Frag) (full : Str) :
    ∀ (gs : List Nat) (r : Record),
      runSeq none cleaned full gs r = (applyList gs cleaned full r, none) := by
  intro gs
  induction gs with
  | nil => intro r; rfl
  | cons i rest ih =>
    intro r
    simp only [runSeq, applyList, List.foldl_cons]
    exact ih (applyGroup i cleaned full r)

theorem runSeq_fault_split (cleaned : List Frag) (full : Str) (k : Nat) :
    ∀ (l1 l2 : List Nat) (r : Record), k ∉ l1 →
      runSeq (some k) cleaned full (l1 ++ k :: l2) r =
        (applyList l1 cleaned full r, some ()) := by
  intro l1
  induction l1 with
  | nil =>
    intro l2 r _
    simp [runSeq, applyList]
  | cons i rest ih =>
    intro l2 r hk
    have hki : ¬ (k = i) := by
      intro hc
      exact hk (by simp [hc])
    simp only [List.cons_append, runSeq, applyList, List.foldl_cons]
    rw [if_neg hki]
    exact ih l2 (applyGroup i cleaned full r) (fun hc => hk (by simp [hc]))

theorem extract_fields_runSeq (fault : Option Nat) (ocr : List Frag) :
    extract_fields fault ocr =
      (runSeq fault (cleanedOf ocr) (fullTextOf ocr) groupIdx skeletonRecord).1 := by
  unfold extract_fields extract_fields_outcome
  rcases hr : runSeq fault (cleanedOf ocr) (fullTextOf ocr) groupIdx skeletonRecord
    with ⟨r, e⟩
  cases e <;> simp [hr]

theorem extract_fields_outcome_no_exn (fault : Option Nat) (ocr : List Frag) :
    (extract_fields_outcome fault ocr).2 = none := by
  unfold extract_fields_outcome
  rcases hr : runSeq fault (cleanedOf ocr) (fullTextOf ocr) groupIdx skeletonRecord
    with ⟨r, e⟩
  cases e <;> simp [hr]

/-- Group `i` writes only its own region. -/
theorem applyGroup_frame (i j : Nat) (cleaned : List Frag) (full : Str) (r : Record)
    (h : j ≠ i) : regionEq j (applyGroup i cleaned full r) r := by
  unfold regionEq
  rcases i with _ | _ | _ | _ | _ | _ | _ | _ | i <;>
    rcases j with _ | _ | _ | _ | _ | _ | _ | _ | j <;>
    first
      | exact absurd rfl h
      | rfl

theorem regionEq_trans {j : Nat} {a b c : Record} (h1 : regionEq j a b)
    (h2 : regionEq j b c) : regionEq j a c := h1.trans h2

theorem applyList_frame (cleaned : List Frag) (full : Str) (j : Nat) :
    ∀ (l : List Nat) (r : Record), (∀ i ∈ l, j ≠ i) →
      regionEq j (applyList l cleaned full r) r := by
  intro l
  induction l with
  | nil => intro r _; rfl
  | cons i rest ih =>
    intro r h
    simp only [applyList, List.foldl_cons]
    exact regionEq_trans (ih (applyGroup i cleaned full r) (fun x hx => h x (by simp [hx])))
      (applyGroup_frame i j cleaned full r (h i (by simp)))

theorem applyList_append (cleaned : List Frag) (full : Str) (l1 l2 : List Nat) (r : Record) :
    applyList (l1 ++ l2) cleaned full r = applyList l2 cleaned full (applyList l1 cleaned full r) := by
  simp [applyList, List.foldl_append]

/-- The eight record parts no extraction routine assigns to. -/
def quietOf (r : Record) :=
  (r.PropertyOfInterest, r.TotalValueOfPropertyInRs, r.Inquest_UDB_CaseNo,
   r.FIR.InfoReceivedAtPS, r.FIR.GeneralDiaryReference, r.ComplainantSignature,
   r.DateTimeOfDispatchToCourt, r.AccusedPhysicalDetails)

theorem applyGroup_quiet (i : Nat) (cleaned : List Frag) (full : Str) (r : Record) :
    quietOf (applyGroup i cleaned full r) = quietOf r := by
  rcases i with _ | _ | _ | _ | _ | _ | _ | _ | i <;> rfl

theorem runSeq_quiet (cleaned : List Frag) (full : Str) :
    ∀ (gs : List Nat) (fault : Option Nat) (r : Record),
      quietOf (runSeq fault cleaned full gs r).1 = quietOf r := by
  intro gs
  induction gs with
  | nil => intro fault r; rfl
  | cons i rest ih =>
    intro fault r
    match fault with
    | none =>
      simp only [runSeq]
      rw [ih none (applyGroup i cleaned full r), applyGroup_quiet]
    | some k =>
      simp only [runSeq]
      split
      · rfl
      · rw [ih (some k) (applyGroup i cleaned full r), applyGroup_quiet]

/-- The year rule of `_extract_fir_info` as a standalone function: value of
    the first 4-digit window when it lies in [2000, 2030], else the default 0. -/
def yearOf (full : Str) : Nat :=
  match firstDigitRun 4 full with
  | some d => if 2000 ≤ natOfDigits d ∧ natOfDigits d ≤ 2030 then natOfDigits d else 0
  | none => 0

theorem applyList_year (cleaned : List Frag) (full : Str) (r : Record) :
    (applyList groupIdx cleaned full r).FIR.Year =
      ((extract_fir_info full).Year).getD r.FIR.Year := rfl

theorem year_getD (f : Str) : ((extract_fir_info f).Year).getD 0 = yearOf f := by
  rcases hf : firstDigitRun 4 f with _ | d
  · simp [extract_fir_info, yearOf, hf]
  · by_cases hy : 2000 ≤ natOfDigits d ∧ natOfDigits d ≤ 2030
    · simp [extract_fir_info, yearOf, hf, hy]
    · simp [extract_fir_info, yearOf, hf, hy]

/-! ## Dictionary lemmas (Python `dict.update` semantics) -/

theorem dictGet_map_ne {k k' : Str} {v : Str} (h : k' ≠ k) :
    ∀ (m : PatternMap),
      dictGet k (m.map (fun kv => if kv.1 = k' then (k', v) else kv)) = dictGet k m := by
  intro m
  induction m with
  | nil => rfl
  | cons kv t ih =>
    simp only [List.map_cons]
    by_cases hkv : kv.1 = k'
    · rw [if_pos hkv]
      show (if k' = k then some v else _) = _
      rw [if_neg h, ih]
      show _ = (if kv.1 = k then some kv.2 else dictGet k t)
      rw [if_neg (by rw [hkv]; exact h)]
    · rw [if_neg hkv]
      show (if kv.1 = k then some kv.2 else _) = (if kv.1 = k then some kv.2 else _)
      by_cases hk2 : kv.1 = k
      · rw [if_pos hk2, if_pos hk2]
      · rw [if_neg hk2, if_neg hk2, ih]

theorem dictGet_append_single_ne {k k' v : Str} (h : k' ≠ k) :
    ∀ (m : PatternMap), dictGet k (m ++ [(k', v)]) = dictGet k m := by
  intro m
  induction m with
  | nil => simp [dictGet, h]
  | cons kv t ih =>
    show (if kv.1 = k then some kv.2 else _) = (if kv.1 = k then some kv.2 else _)
    by_cases hk2 : kv.1 = k
    · rw [if_pos hk2, if_pos hk2]
    · rw [if_neg hk2, if_neg hk2]
      exact ih

theorem dictGet_dictSet_ne {k k' v : Str} (h : k' ≠ k) (m : PatternMap) :
    dictGet k (dictSet m k' v) = dictGet k m := by
  unfold dictSet
  split
  · exact dictGet_map_ne h m
  · exact dictGet_append_single_ne h m

theorem dictGet_map_set_self {k v : Str} :
    ∀ (m : PatternMap), (dictGet k m).isSome →
      dictGet k (m.map (fun kv => if kv.1 = k then (k, v) else kv)) = some v := by
  intro m
  induction m with
  | nil => intro hs; simp [dictGet] at hs
  | cons kv t ih =>
    intro hs
    simp only [List.map_cons]
    by_cases hkv : kv.1 = k
    · rw [if_pos hkv]
      show (if k = k then some v else _) = some v
      rw [if_pos rfl]
    · rw [if_neg hkv]
      show (if kv.1 = k then some kv.2 else _) = some v
      rw [if_neg hkv]
      apply ih
      have heq : dictGet k (kv :: t) = dictGet k t := by
        show (if kv.1 = k then some kv.2 else dictGet k t) = dictGet k t
        rw [if_neg hkv]
      rw [heq] at hs
      exact hs

theorem dictGet_append_single_self {k v : Str} :
    ∀ (m : PatternMap), ¬ (dictGet k m).isSome = true →
      dictGet k (m ++ [(k, v)]) = some v := by
  intro m
  induction m with
  | nil => intro _; simp [dictGet]
  | cons kv t ih =>
    intro hs
    by_cases hkv : kv.1 = k
    · exfalso
      apply hs
      show (if kv.1 = k then some kv.2 else dictGet k t).isSome = true
      rw [if_pos hkv]
      rfl
    · show (if kv.1 = k then some kv.2 else _) = some v
      rw [if_neg hkv]
      apply ih
      intro hs2
      apply hs
      show (if kv.1 = k then some kv.2 else dictGet k t).isSome = true
      rw [if_neg hkv]
      exact hs2

theorem dictGet_dictSet_self (k v : Str) (m : PatternMap) :
    dictGet k (dictSet m k v) = some v := by
  unfold dictSet
  split
  · exact dictGet_map_set_self m (by assumption)
  · exact dictGet_append_single_self m (by assumption)

theorem dictGet_dictUpdate_not_mem {k : Str} :
    ∀ (l : List (Str × Str)) (m : PatternMap), (∀ kv ∈ l, kv.1 ≠ k) →
      dictGet k (dictUpdate m l) = dictGet k m := by
  intro l
  induction l with
  | nil => intro m _; rfl
  | cons kv t ih =>
    intro m h
    show dictGet k (dictUpdate (dictSet m kv.1 kv.2) t) = dictGet k m
    rw [ih (dictSet m kv.1 kv.2) (fun x hx => h x (by simp [hx]))]
    exact dictGet_dictSet_ne (h kv (by simp)) m

theorem dictGet_dictUpdate_head {k v : Str} (l : List (Str × Str)) (m : PatternMap)
    (h : ∀ kv ∈ l, kv.1 ≠ k) :
    dictGet k (dictUpdate m ((k, v) :: l)) = some v := by
  show dictGet k (dictUpdate (dictSet m k v) l) = some v
  rw [dictGet_dictUpdate_not_mem l (dictSet m k v) h]
  exact dictGet_dictSet_self k v m

/-! ## Substring lemmas for the synthesized alternation patterns -/

theorem leadsWith_self_append (k b : Str) : leadsWith k (k ++ b) = true := by
  induction k with
  | nil => rfl
  | cons c t ih => simp [leadsWith, ih]

theorem isSub_self_append (k b : Str) : isSub k (k ++ b) = true := by
  cases k with
  | nil => cases b <;> simp [isSub, leadsWith]
  | cons c t =>
    have h := leadsWith_self_append (c :: t) b
    simp only [List.cons_append] at h
    simp [isSub, h]

theorem isSub_append_mid : ∀ (a k b : Str), isSub k (a ++ (k ++ b)) = true := by
  intro a
  induction a with
  | nil => intro k b; exact isSub_self_append k b
  | cons x a' ih =>
    intro k b
    show isSub k (x :: (a' ++ (k ++ b))) = true
    simp [isSub, ih k b]

theorem joinWith_mem_decomp (sep : Str) :
    ∀ (l : List Str) (v : Str), v ∈ l → ∃ a b, joinWith sep l = a ++ (v ++ b) := by
  intro l
  induction l with
  | nil => intro v hv; simp at hv
  | cons x t ih =>
    intro v hv
    rcases List.mem_cons.mp hv with hvx | hvt
    · subst hvx
      cases t with
      | nil => exact ⟨[], [], by simp [joinWith]⟩
      | cons y t' => exact ⟨[], sep ++ joinWith sep (y :: t'), by simp [joinWith]⟩
    · cases t with
      | nil => simp at hvt
      | cons y t' =>
        obtain ⟨a, b, hab⟩ := ih v hvt
        exact ⟨x ++ sep ++ a, b, by simp [joinWith, hab, List.append_assoc]⟩

theorem isSub_joinBar {v : Str} {l : List Str} (hv : v ∈ l) (pre post : Str) :
    isSub v (pre ++ joinBar l ++ post) = true := by
  obtain ⟨a, b, hab⟩ := joinWith_mem_decomp ['|'] l v hv
  show isSub v (pre ++ joinWith ['|'] l ++ post) = true
  rw [hab]
  have h1 : pre ++ (a ++ (v ++ b)) ++ post = (pre ++ a) ++ (v ++ (b ++ post)) := by
    simp [List.append_assoc]
  rw [h1]
  exact isSub_append_mid (pre ++ a) v (b ++ post)

/-! ## Concrete inputs used by the claim theorems -/

def c1frags : List Frag := [⟨txt "Name : Ramesh Kumar", 1, []⟩]

def c2frags : List Frag := [⟨txt "District : Pune Camp Area", 1, []⟩]

def c3frags : List Frag :=
  [⟨txt "Accused", 1, []⟩, ⟨txt "Name", 1, []⟩, ⟨txt "Ramesh Kumar", 1, []⟩]

def c5frags : List Frag := [⟨txt "1850 2005", 1, []⟩]

def puneSample : Sample := ⟨txt "f1", [], txt "Pune", [], []⟩

def nagpurSample : Sample := ⟨txt "f2", [], txt "Nagpur", [], []⟩

def emptySample : Sample := ⟨txt "f0", [], [], [], []⟩

def firSample : Sample := ⟨txt "f3", txt "0123", [], [], []⟩

def samples5P : List Sample := List.replicate 5 puneSample

def samples5E : List Sample := List.replicate 5 emptySample

def samples4E : List Sample := List.replicate 4 emptySample

def samples5F : List Sample := List.replicate 5 firSample

def c7samples : List Sample := List.replicate 5 puneSample ++ [nagpurSample]

/-- The district pattern the code synthesizes from five "Pune" samples. -/
def c2pat : Str := txt "(?:District|जिला).*?:\\s*(Pune|Pune|Pune|Pune|Pune)"

/-! ## Claim theorems -/

/-- C3 (counterexample): on fragments ["Accused", "Name", "Ramesh Kumar"]
    (all above the confidence threshold), `extract_fields` does NOT return one
    accused entry named "Ramesh Kumar"; the claim's expected output fails. -/
theorem c3_counterexample :
    ¬ ((extract_fields none c3frags).AccusedDetails.map (fun a => a.Name)
        = [txt "Ramesh Kumar"]) := by decide

/-- C3 (amended): on those fragments the accused list comes out empty — the
    second definition of `_extract_accused` shadows the block heuristic, and
    its label-anchored regex requires a colon after the Name label (moreover
    the correction table rewrites "Accused" to "AccusNo"). -/
theorem c3_amended : (extract_fields none c3frags).AccusedDetails = [] := by decide

/-- C4 (counterexample): `extract([])` does not have every declared key at an
    empty/zero value: the complainant `Nationality` key holds "भारत". -/
theorem c4_counterexample :
    allZeroEmpty (extract_fields none []) = false ∧
    (extract_fields none []).ComplainantInformant.Nationality = txt "भारत" := by decide

/-- C4 (amended): `extract([])` returns exactly the default-filled skeleton
    (no key omitted), and in that skeleton every declared key at every nesting
    level is an empty string, empty list, or zero, except `Nationality`, which
    defaults to the literal "भारत". -/
theorem c4_amended :
    extract_fields none [] = skeletonRecord ∧
    allZeroEmptyExceptNationality skeletonRecord = true := by decide

/-- C5 (counterexample): on full text "1850 2005" the first in-range 4-digit
    run is 2005, but the code leaves Year at 0 because the first 4-digit run
    of the text (1850) is out of range and the search stops there. -/
theorem c5_counterexample :
    (extract_fields none c5frags).FIR.Year = 0 ∧
    claimedFirstYearInRange (fullTextOf c5frags) = 2005 := by decide

/-- C5 (amended): for every input, `FIR.Year` equals the value of the FIRST
    4-digit run of the full text if that value lies in [2000, 2030], and 0
    otherwise — later in-range runs are never consulted. -/
theorem c5_amended (ocr : List Frag) :
    (extract_fields none ocr).FIR.Year = yearOf (fullTextOf ocr) := by
  rw [extract_fields_runSeq]
  have hn : (runSeq none (cleanedOf ocr) (fullTextOf ocr) groupIdx skeletonRecord).1
      = applyList groupIdx (cleanedOf ocr) (fullTextOf ocr) skeletonRecord := by
    rw [runSeq_none_fold]
  rw [hn, applyList_year]
  exact year_getD (fullTextOf ocr)

/-- C8: `extract_fields` always terminates with a record and never lets an
    exception escape its boundary, whichever field-group routine (if any)
    raises: the whole-call failure outcome is unreachable. -/
theorem c8_theorem (fault : Option Nat) (ocr : List Frag) :
    extract_fields_outcome fault ocr = (extract_fields fault ocr, none) := by
  rcases ho : extract_fields_outcome fault ocr with ⟨r, e⟩
  have h := extract_fields_outcome_no_exn fault ocr
  rw [ho] at h
  simp only at h
  subst h
  unfold extract_fields
  rw [ho]

/-- C10: whatever the input (and whichever routine raises), the fields
    PropertyOfInterest, TotalValueOfPropertyInRs, Inquest_UDB_CaseNo,
    FIR.InfoReceivedAtPS, FIR.GeneralDiaryReference, ComplainantSignature,
    DateTimeOfDispatchToCourt and AccusedPhysicalDetails keep their skeleton
    defaults: no extraction routine ever writes to them. -/
theorem c10_theorem (fault : Option Nat) (ocr : List Frag) :
    (extract_fields fault ocr).PropertyOfInterest = [] ∧
    (extract_fields fault ocr).TotalValueOfPropertyInRs = [] ∧
    (extract_fields fault ocr).Inquest_UDB_CaseNo = [] ∧
    (extract_fields fault ocr).FIR.InfoReceivedAtPS = { Date := [], Time := [] } ∧
    (extract_fields fault ocr).FIR.GeneralDiaryReference
      = { EntryNo := [], DateTime := [] } ∧
    (extract_fields fault ocr).ComplainantSignature
      = { Name := [], Rank := [], No := [] } ∧
    (extract_fields fault ocr).DateTimeOfDispatchToCourt = [] ∧
    (extract_fields fault ocr).AccusedPhysicalDetails = [] := by
  have h := runSeq_quiet (cleanedOf ocr) (fullTextOf ocr) groupIdx fault skeletonRecord
  rw [← extract_fields_runSeq] at h
  simp only [quietOf, skeletonRecord, Prod.mk.injEq] at h
  exact ⟨h.1, h.2.1, h.2.2.1, h.2.2.2.1, h.2.2.2.2.1, h.2.2.2.2.2.1,
    h.2.2.2.2.2.2.1, h.2.2.2.2.2.2.2⟩

/-- C2 (code evaluated at the failing input): a successful refinement derives
    and persists a district pattern containing the literal "Pune", yet a
    subsequent extract call on "District : Pune Camp Area" produces
    "Pune Camp Area" via the hard-coded built-in regex — the refined pattern
    (matching "Pune" verbatim) is never consulted by extraction. -/
theorem c2_theorem :
    (retrain_model samples5P none).status = txt "success" ∧
    (retrain_model samples5P none).fileAfter = some [(txt "district", c2pat)] ∧
    isSub (txt "Pune") c2pat = true ∧
    (extract_fields none c2frags).FIR.District = txt "Pune Camp Area" := by decide

/-- C9 (counterexample): normalization is not idempotent: "1  Tee aA."
    normalizes to "1 Tee aA.", whose second normalization re-triggers the
    correction-table entry formed by the whitespace collapse and yields
    "1 km approx". -/
theorem c9_counterexample :
    cleanText (txt "1  Tee aA.") = some (txt "1 Tee aA.") ∧
    cleanText (txt "1 Tee aA.") = some (txt "1 km approx") ∧
    ¬ (txt "1 km approx" = txt "1 Tee aA.") := by decide

/-- C9 (amended): a second normalization pass returns already-normalized text
    unchanged provided no correction-table key occurs in it and it is at least
    2 characters long; without those provisos a second pass can re-trigger a
    correction (whitespace collapse runs after the correction pass) or drop
    the fragment. -/
theorem c9_amended (s t : Str) (h : cleanText s = some t)
    (hk : ∀ kv ∈ corrections, isSub kv.1 t = false) (hl : 2 ≤ t.length) :
    cleanText t = some t := cleanText_fix h hk hl

/-- C9 witness: the amended theorem applied at the concrete normalized text
    "ab". -/
theorem c9_amended_witness : cleanText (txt "ab") = some (txt "ab") :=
  c9_amended (txt "ab") (txt "ab") (by decide) (by decide) (by decide)

/-- C1 (counterexample): with a fault injected in group 0 (FIR info) on input
    "Name : Ramesh Kumar", the complainant group — whose routine succeeds on
    this input — is also left at its default: isolation is not per-group. -/
theorem c1_counterexample :
    ¬ regionEq 1 (extract_fields (some 0) c1frags) (extract_fields none c1frags) ∧
    (extract_fields (some 0) c1frags).ComplainantInformant.Name = [] ∧
    (extract_fields none c1frags).ComplainantInformant.Name = txt "Ramesh Kumar" := by
  decide

theorem c1_core (cleaned : List Frag) (full : Str) (k : Nat) (l2 : List Nat)
    (hsplit : groupIdx = List.range k ++ k :: l2)
    (hmem : ∀ i ∈ k :: l2, k ≤ i) (j : Nat) :
    (j < k → regionEq j (runSeq (some k) cleaned full groupIdx skeletonRecord).1
        (applyList groupIdx cleaned full skeletonRecord)) ∧
    (k ≤ j → regionEq j (runSeq (some k) cleaned full groupIdx skeletonRecord).1
        skeletonRecord) := by
  have hk_not : k ∉ List.range k := by simp
  rw [hsplit, runSeq_fault_split cleaned full k (List.range k) l2 skeletonRecord hk_not]
  constructor
  · intro hjk
    rw [applyList_append]
    exact (applyList_frame cleaned full j (k :: l2) _
      (fun i hi => by have := hmem i hi; omega)).symm
  · intro hkj
    exact applyList_frame cleaned full j (List.range k) _
      (fun i hi => by rw [List.mem_range] at hi; omega)

/-- C1 (amended): an exception in group `k` is caught and never propagates,
    but isolation is positional, not per-group: groups before `k` keep the
    values of a fault-free run, while group `k` AND every later group are
    left at their skeleton defaults. -/
theorem c1_amended (k j : Nat) (ocr : List Frag) (hk : k < 8) (_hj : j < 8) :
    (j < k → regionEq j (extract_fields (some k) ocr) (extract_fields none ocr)) ∧
    (k ≤ j → regionEq j (extract_fields (some k) ocr) skeletonRecord) := by
  have hn : extract_fields none ocr
      = applyList groupIdx (cleanedOf ocr) (fullTextOf ocr) skeletonRecord := by
    rw [extract_fields_runSeq, runSeq_none_fold]
  rw [hn, extract_fields_runSeq]
  interval_cases k
  · exact c1_core _ _ 0 [1, 2, 3, 4, 5, 6, 7] (by decide) (by decide) j
  · exact c1_core _ _ 1 [2, 3, 4, 5, 6, 7] (by decide) (by decide) j
  · exact c1_core _ _ 2 [3, 4, 5, 6, 7] (by decide) (by decide) j
  · exact c1_core _ _ 3 [4, 5, 6, 7] (by decide) (by decide) j
  · exact c1_core _ _ 4 [5, 6, 7] (by decide) (by decide) j
  · exact c1_core _ _ 5 [6, 7] (by decide) (by decide) j
  · exact c1_core _ _ 6 [7] (by decide) (by decide) j
  · exact c1_core _ _ 7 [] (by decide) (by decide) j

/-- C1 witness: the amended theorem at a fault in group 1 on the concrete
    input: group 0 matches the fault-free run, group 1 stays at default. -/
theorem c1_amended_witness :
    regionEq 0 (extract_fields (some 1) c1frags) (extract_fields none c1frags) ∧
    regionEq 1 (extract_fields (some 1) c1frags) skeletonRecord :=
  ⟨(c1_amended 1 0 c1frags (by decide) (by decide)).1 (by decide),
   (c1_amended 1 1 c1frags (by decide) (by decide)).2 (by decide)⟩

theorem improvedTail_keys (p : ImprovedPatterns) :
    ∀ kv ∈ improvedTail p, kv.1 ≠ txt "fir_no" := by
  intro kv hkv
  unfold improvedTail at hkv
  rcases List.mem_append.mp hkv with h1 | h3
  · rcases List.mem_append.mp h1 with ha | hb
    · rcases hd : p.district with _ | d
      · rw [hd] at ha; simp at ha
      · rw [hd] at ha
        simp at ha
        rw [ha]
        show txt "district" ≠ txt "fir_no"
        decide
    · rcases hp : p.police_station with _ | q
      · rw [hp] at hb; simp at hb
      · rw [hp] at hb
        simp at hb
        rw [hb]
        show txt "police_station" ≠ txt "fir_no"
        decide
  · rcases hn : p.complainant_name with _ | n
    · rw [hn] at h3; simp at h3
    · rw [hn] at h3
      simp at h3
      rw [h3]
      show txt "complainant_name" ≠ txt "fir_no"
      decide

theorem improvedList_of_none {p : ImprovedPatterns} (hf : p.fir_no = none) :
    improvedList p = improvedTail p := by
  unfold improvedList
  rw [hf]
  simp

theorem improvedList_of_some {p : ImprovedPatterns} {f : Str}
    (hf : p.fir_no = some f) :
    improvedList p = (txt "fir_no", f) :: improvedTail p := by
  unfold improvedList
  rw [hf]
  simp

/-- C6 (counterexample): refinement over 5 samples whose ground truth is
    entirely empty reports "success", yet the fresh pattern store still holds
    the ORIGINAL baseline `fir_no` rule, not an updated one. -/
theorem c6_counterexample :
    (retrain_model samples5E none).status = txt "success" ∧
    (retrain_model samples5E none).freshPatterns = some basePatterns ∧
    dictGet (txt "fir_no") basePatterns
      = some (txt "FIR\\s*No\\.\\s*:\\s*(\\d\x7b4\x7d)") ∧
    ¬ (txt "FIR\\s*No\\.\\s*:\\s*(\\d\x7b4\x7d)" = flexFirPat) := by decide

/-- C6 (amended): with fewer than 5 samples refinement reports
    "insufficient_data" and leaves the durable pattern file untouched (and
    constructs no pattern store); with 5 or more it reports "success",
    overwrites the file with the derived rules, and the freshly built store's
    `fir_no` rule is the flexible updated pattern exactly when some sample has
    a non-empty ground-truth FIR number — otherwise it stays as loaded. -/
theorem c6_amended (samples : List Sample) (fileB : Option PatternMap) :
    (samples.length < 5 →
      retrain_model samples fileB =
        { status := txt "insufficient_data", freshPatterns := none, fileAfter := fileB }) ∧
    (5 ≤ samples.length →
      (retrain_model samples fileB).status = txt "success" ∧
      (retrain_model samples fileB).fileAfter
        = some (improvedList (analyze_training_samples samples)) ∧
      ∃ m, (retrain_model samples fileB).freshPatterns = some m ∧
        dictGet (txt "fir_no") m =
          (if (samples.filterMap (fun s =>
                if s.gtFIRNo.isEmpty then none else some s.gtFIRNo)).isEmpty
           then dictGet (txt "fir_no") (loadPatterns fileB)
           else some flexFirPat)) := by
  constructor
  · intro h
    unfold retrain_model
    rw [if_pos h]
  · intro h
    have hlt : ¬ samples.length < 5 := by omega
    unfold retrain_model
    rw [if_neg hlt]
    refine ⟨rfl, rfl,
      dictUpdate (loadPatterns fileB) (improvedList (analyze_training_samples samples)),
      rfl, ?_⟩
    by_cases hc : (samples.filterMap (fun s =>
        if s.gtFIRNo.isEmpty then none else some s.gtFIRNo)).isEmpty = true
    · rw [if_pos hc]
      have hf : (analyze_training_samples samples).fir_no = none := by
        simp only [analyze_training_samples]
        rw [if_pos hc]
      rw [improvedList_of_none hf]
      exact dictGet_dictUpdate_not_mem (improvedTail (analyze_training_samples samples))
        (loadPatterns fileB) (improvedTail_keys _)
    · rw [if_neg hc]
      have hf : (analyze_training_samples samples).fir_no = some flexFirPat := by
        simp only [analyze_training_samples]
        rw [if_neg hc]
      rw [improvedList_of_some hf]
      exact dictGet_dictUpdate_head (improvedTail (analyze_training_samples samples))
        (loadPatterns fileB) (improvedTail_keys _)

/-- C6 witness: the amended theorem at 4 empty samples (insufficient data,
    file untouched) and at 5 samples carrying FIR number "0123" (success). -/
theorem c6_amended_witness :
    retrain_model samples4E none =
      { status := txt "insufficient_data", freshPatterns := none, fileAfter := none } ∧
    (retrain_model samples5F none).status = txt "success" :=
  ⟨(c6_amended samples4E none).1 (by decide),
   ((c6_amended samples5F none).2 (by decide)).1⟩

/-- C7 (counterexample): the values are NOT deduplicated before the top-5
    truncation: six samples with districts Pune ×5 and Nagpur yield the
    literal alternation "Pune|Pune|Pune|Pune|Pune" — "Nagpur" is pushed out,
    while the claimed distinct-value synthesis would produce "Pune|Nagpur". -/
theorem c7_counterexample :
    (analyze_training_samples c7samples).district = some c2pat ∧
    isSub (txt "Nagpur") c2pat = false ∧
    claimedDistrictPattern c7samples
      = some (txt "(?:District|जिला).*?:\\s*(Pune|Nagpur)") ∧
    isSub (txt "Nagpur") (txt "(?:District|जिला).*?:\\s*(Pune|Nagpur)") = true := by
  decide

/-- C7 (amended): for district / police station / complainant name the code
    collects the non-empty ground-truth values in sample order WITHOUT
    deduplication, truncates to the first 5 (3 for complainant name),
    regex-escapes each, and every surviving escaped value appears verbatim in
    the synthesized label-anchored alternation; for the FIR number no literal
    alternation is built — at most the fixed flexible pattern is installed. -/
theorem c7_amended (samples : List Sample) :
    ((analyze_training_samples samples).fir_no = none ∨
      (analyze_training_samples samples).fir_no = some flexFirPat) ∧
    (∀ p, (analyze_training_samples samples).district = some p →
      ∀ v ∈ (districtVals samples).take 5, isSub v p = true) ∧
    (∀ p, (analyze_training_samples samples).police_station = some p →
      ∀ v ∈ (psVals samples).take 5, isSub v p = true) ∧
    (∀ p, (analyze_training_samples samples).complainant_name = some p →
      ∀ v ∈ (nameVals samples).take 3, isSub v p = true) := by
  refine ⟨?_, ?_, ?_, ?_⟩
  · by_cases hc : (samples.filterMap (fun s =>
        if s.gtFIRNo.isEmpty then none else some s.gtFIRNo)).isEmpty = true
    · left
      simp only [analyze_training_samples]
      rw [if_pos hc]
    · right
      simp only [analyze_training_samples]
      rw [if_neg hc]
  · intro p hp v hv
    by_cases hc : (districtVals samples).isEmpty = true
    · simp only [analyze_training_samples] at hp
      rw [if_pos hc] at hp
      exact absurd hp (by simp)
    · simp only [analyze_training_samples] at hp
      rw [if_neg hc] at hp
      have hp' := Option.some.inj hp
      rw [← hp']
      unfold mkDistrictPat
      exact isSub_joinBar hv _ _
  · intro p hp v hv
    by_cases hc : (psVals samples).isEmpty = true
    · simp only [analyze_training_samples] at hp
      rw [if_pos hc] at hp
      exact absurd hp (by simp)
    · simp only [analyze_training_samples] at hp
      rw [if_neg hc] at hp
      have hp' := Option.some.inj hp
      rw [← hp']
      unfold mkPsPat
      exact isSub_joinBar hv _ _
  · intro p hp v hv
    by_cases hc : (nameVals samples).isEmpty = true
    · simp only [analyze_training_samples] at hp
      rw [if_pos hc] at hp
      exact absurd hp (by simp)
    · simp only [analyze_training_samples] at hp
      rw [if_neg hc] at hp
      have hp' := Option.some.inj hp
      rw [← hp']
      unfold mkNamePat
      exact isSub_joinBar hv _ _

/-- C7 witness: the amended theorem at the six-sample input: the escaped value
    "Pune" occurs verbatim in the synthesized district pattern. -/
theorem c7_amended_witness : isSub (reEscape (txt "Pune")) c2pat = true :=
  (c7_amended c7samples).2.1 c2pat (by decide) (reEscape (txt "Pune")) (by decide)
